import Mathlib

/-!
Verification of the stocky stock-predictor core: feature engineering,
model resolution and prediction.

The feature pipeline is translated from the Python embedded in
`stock_predictor_plan.md` (`calculate_technical_indicators`, `prepare_model_data`,
`make_prediction`); the standalone indicator functions are translated from
`frontend/src/TechnicalChart.js` (`calculateSMA`, `calculateEMA`, `calculateRSI`).
Pandas/NumPy float cells are modelled exactly by the type `PV`: an exact
rational together with the IEEE special values `nan`, `inf` and `-inf`,
with NaN-propagating arithmetic and NaN-false comparisons.  The backend's
model registry and typed error layer (`backend/predict.py`,
`backend/model_loader.py`) are not part of the sources; those definitions
are modelled from the specification and say so in their doc comments.
-/

set_option maxRecDepth 8000

attribute [local semireducible] Rat.add Rat.sub Rat.mul Rat.inv

namespace Stocky

/-- A pandas/NumPy float cell: an exact rational or one of the IEEE special
values NaN, +inf, -inf.  Arithmetic follows IEEE semantics (NaN propagates,
division of a nonzero rational by zero gives a signed infinity), except that
finite values are exact rationals rather than rounded doubles. -/
inductive PV where
  | nan : PV
  | inf : PV
  | ninf : PV
  | num : ℚ → PV
deriving DecidableEq

/-- True exactly on the NaN cell; `dropna` removes rows using this test. -/
def PV.isNan : PV → Bool
  | .nan => true
  | _ => false

/-- IEEE-style addition on cells. -/
def PV.add : PV → PV → PV
  | .nan, _ => .nan
  | _, .nan => .nan
  | .inf, .ninf => .nan
  | .ninf, .inf => .nan
  | .inf, _ => .inf
  | _, .inf => .inf
  | .ninf, _ => .ninf
  | _, .ninf => .ninf
  | .num a, .num b => .num (a + b)

/-- IEEE-style negation on cells. -/
def PV.neg : PV → PV
  | .nan => .nan
  | .inf => .ninf
  | .ninf => .inf
  | .num a => .num (-a)

/-- IEEE-style subtraction on cells. -/
def PV.sub (a b : PV) : PV := PV.add a (PV.neg b)

/-- IEEE-style multiplication on cells (`inf * 0 = nan`). -/
def PV.mul : PV → PV → PV
  | .nan, _ => .nan
  | _, .nan => .nan
  | .inf, .inf => .inf
  | .inf, .ninf => .ninf
  | .ninf, .inf => .ninf
  | .ninf, .ninf => .inf
  | .inf, .num b => if 0 < b then .inf else if b < 0 then .ninf else .nan
  | .num a, .inf => if 0 < a then .inf else if a < 0 then .ninf else .nan
  | .ninf, .num b => if 0 < b then .ninf else if b < 0 then .inf else .nan
  | .num a, .ninf => if 0 < a then .ninf else if a < 0 then .inf else .nan
  | .num a, .num b => .num (a * b)

/-- IEEE-style division on cells: a nonzero rational divided by zero is a
signed infinity, `0 / 0` and `inf / inf` are NaN, a rational divided by an
infinity is zero. -/
def PV.div : PV → PV → PV
  | .nan, _ => .nan
  | _, .nan => .nan
  | .inf, .inf => .nan
  | .inf, .ninf => .nan
  | .ninf, .inf => .nan
  | .ninf, .ninf => .nan
  | .num _, .inf => .num 0
  | .num _, .ninf => .num 0
  | .inf, .num b => if b < 0 then .ninf else .inf
  | .ninf, .num b => if b < 0 then .inf else .ninf
  | .num a, .num b =>
      if b = 0 then (if 0 < a then .inf else if a < 0 then .ninf else .nan)
      else .num (a / b)

/-- IEEE-style strict comparison: any comparison with NaN is false. -/
def PV.lt : PV → PV → Bool
  | .nan, _ => false
  | _, .nan => false
  | .ninf, .ninf => false
  | .ninf, _ => true
  | _, .ninf => false
  | .inf, _ => false
  | _, .inf => true
  | .num a, .num b => decide (a < b)

/-- Newton iteration for the integer square root, structurally recursive on a
fuel argument so that the kernel can evaluate it (the iteration stops as soon
as the candidate squares below the radicand). -/
def isqrtAux (n : ℕ) : ℕ → ℕ → ℕ
  | 0, x => x
  | fuel + 1, x => if x * x ≤ n then x else isqrtAux n fuel ((x + n / x) / 2)

/-- Integer square root by Newton iteration (floor of the real square root). -/
def isqrt (n : ℕ) : ℕ := isqrtAux n n n

/-- Rational square root approximation used only inside the Bollinger-band
standard deviation: exact whenever `q.num * q.den` is a perfect square.  No
theorem in this file inspects the numeric value of a Bollinger column — only
its NaN pattern, which `sqrtA` preserves exactly (a defined nonnegative
variance yields a defined standard deviation). -/
def ratSqrt (q : ℚ) : ℚ := (isqrt (q.num.toNat * q.den) : ℚ) / (q.den : ℚ)

/-- Square root on cells mirroring `numpy.sqrt`: NaN on NaN and on negative
inputs, `inf` on `inf`, otherwise the (approximated) rational square root. -/
def PV.sqrtA : PV → PV
  | .nan => .nan
  | .inf => .inf
  | .ninf => .nan
  | .num q => if q < 0 then .nan else .num (ratSqrt q)

/-- `Series.rolling(window=w).mean()`: NaN until the window is filled
(position `i` with `i + 1 < w`), then the arithmetic mean of the last `w`
cells; NaN inputs propagate through the window sum. -/
def rollingMean (w : ℕ) (xs : List PV) : List PV :=
  (List.range xs.length).map fun i =>
    if i + 1 < w then PV.nan
    else PV.div (((xs.drop (i + 1 - w)).take w).foldl PV.add (PV.num 0)) (PV.num w)

/-- `Series.rolling(window=w).std()` (sample standard deviation, `ddof = 1`):
NaN until the window is filled, then the square root of the sample variance
of the last `w` cells. -/
def rollingStd (w : ℕ) (xs : List PV) : List PV :=
  (List.range xs.length).map fun i =>
    if i + 1 < w then PV.nan
    else
      let win := (xs.drop (i + 1 - w)).take w
      let m := PV.div (win.foldl PV.add (PV.num 0)) (PV.num w)
      let sq := (win.map fun x => PV.mul (PV.sub x m) (PV.sub x m)).foldl PV.add (PV.num 0)
      PV.sqrtA (PV.div sq (PV.num (w - 1)))

/-- One step of `Series.ewm(span, adjust=False).mean()`:
`e' = alpha * x + (1 - alpha) * e`. -/
def ewmStep (a : ℚ) (e x : PV) : PV :=
  PV.add (PV.mul (PV.num a) x) (PV.mul (PV.num (1 - a)) e)

/-- Tail of the exponentially weighted mean, carrying the running mean. -/
def ewmAux (a : ℚ) : PV → List PV → List PV
  | _, [] => []
  | e, x :: xs => ewmStep a e x :: ewmAux a (ewmStep a e x) xs

/-- `Series.ewm(span=s, adjust=False).mean()` with `alpha = 2 / (s + 1)`,
seeded from the first cell (every position is defined when the inputs are). -/
def ewm (s : ℕ) (xs : List PV) : List PV :=
  match xs with
  | [] => []
  | x :: rest => x :: ewmAux (2 / ((s : ℚ) + 1)) x rest

/-- `Series.diff()`: NaN at position 0, then consecutive differences. -/
def diffCol (xs : List PV) : List PV :=
  match xs with
  | [] => []
  | _ :: _ => PV.nan :: List.zipWith PV.sub (xs.drop 1) xs

/-- `Series.shift(k)` for `k ≥ 0`: `k` leading NaN cells, values pushed right. -/
def shiftPos (k : ℕ) (xs : List PV) : List PV :=
  List.replicate (min k xs.length) PV.nan ++ xs.take (xs.length - k)

/-- `Series.shift(-1)`: values pulled left, NaN in the final position. -/
def shiftM1 (xs : List PV) : List PV :=
  match xs with
  | [] => []
  | _ :: t => t ++ [PV.nan]

/-- `Series.pct_change()`: NaN at position 0, then `(x_i - x_{i-1}) / x_{i-1}`. -/
def pctChange (xs : List PV) : List PV :=
  match xs with
  | [] => []
  | _ :: _ => PV.nan :: List.zipWith (fun a b => PV.div (PV.sub a b) b) (xs.drop 1) xs

/-- One OHLCV observation (the data model's Bar).  `op`, `hi`, `lo` stand for
the open, high and low prices (`open` is a Lean keyword); volume is kept as a
rational because pandas treats the column as a float series. -/
structure Bar where
  time : ℕ
  op : ℚ
  hi : ℚ
  lo : ℚ
  close : ℚ
  volume : ℚ
deriving DecidableEq

/-- The `Close` column of the frame as cells. -/
def closes (bars : List Bar) : List PV := bars.map fun b => PV.num b.close

/-- The `Volume` column of the frame as cells. -/
def volumes (bars : List Bar) : List PV := bars.map fun b => PV.num b.volume

/-- `df['MACD'] = df['EMA_12'] - df['EMA_26']`. -/
def macdCol (bars : List Bar) : List PV :=
  List.zipWith PV.sub (ewm 12 (closes bars)) (ewm 26 (closes bars))

/-- The local `bb_std` series: `df['Close'].rolling(window=20).std()`
(a local variable in the source, not a frame column). -/
def bbStd (bars : List Bar) : List PV := rollingStd 20 (closes bars)

/-- `df['BB_Upper'] = df['BB_Middle'] + (bb_std * 2)`. -/
def bbUpperCol (bars : List Bar) : List PV :=
  List.zipWith PV.add (rollingMean 20 (closes bars))
    ((bbStd bars).map fun v => PV.mul v (PV.num 2))

/-- `df['BB_Lower'] = df['BB_Middle'] - (bb_std * 2)`. -/
def bbLowerCol (bars : List Bar) : List PV :=
  List.zipWith PV.sub (rollingMean 20 (closes bars))
    ((bbStd bars).map fun v => PV.mul v (PV.num 2))

/-- RSI column of `calculate_technical_indicators`: Wilder-style 14-period
average gain over average loss through pandas float semantics.  The position-0
diff is NaN and `where(delta > 0, 0)` turns it into 0 (NaN compares false), so
the rolling means are defined from position 13 on; a window with zero average
loss gives `rs = inf` and `RSI = 100 - 100/(1 + inf) = 100`, and a window with
zero average gain and zero average loss gives `rs = 0/0 = NaN`, hence NaN. -/
def rsiCol (bars : List Bar) : List PV :=
  let delta := diffCol (closes bars)
  let gain := rollingMean 14 (delta.map fun d => if PV.lt (PV.num 0) d then d else PV.num 0)
  let loss := rollingMean 14 (delta.map fun d => if PV.lt d (PV.num 0) then PV.neg d else PV.num 0)
  let rs := List.zipWith PV.div gain loss
  rs.map fun r => PV.sub (PV.num 100) (PV.div (PV.num 100) (PV.add (PV.num 1) r))

/-- `df['Momentum'] = df['Close'] - df['Close'].shift(10)`. -/
def momentumCol (bars : List Bar) : List PV :=
  List.zipWith PV.sub (closes bars) (shiftPos 10 (closes bars))

/-- `df['Volume_Ratio'] = df['Volume'] / df['Volume_SMA']`. -/
def volRatioCol (bars : List Bar) : List PV :=
  List.zipWith PV.div (volumes bars) (rollingMean 20 (volumes bars))

/-- `df['Target'] = (df['Close'].shift(-1) > df['Close']).astype(int)`: label 1
when the next close is strictly greater, else 0.  At the final position the
shifted cell is NaN, the comparison is false, and the label is 0 — never NaN. -/
def targetCol (xs : List PV) : List PV :=
  (List.range xs.length).map fun i =>
    if PV.lt (xs.getD i PV.nan) ((shiftM1 xs).getD i PV.nan) then PV.num 1 else PV.num 0

/-- The frame produced by `calculate_technical_indicators`: the OHLCV columns
followed by the computed columns in their creation order.  `dropna()` in
`prepare_model_data`/`make_prediction` scans all of these columns. -/
def featureTable (bars : List Bar) : List (String × List PV) :=
  [ (r"Open", bars.map fun b => PV.num b.op),
    (r"High", bars.map fun b => PV.num b.hi),
    (r"Low", bars.map fun b => PV.num b.lo),
    (r"Close", closes bars),
    (r"Volume", volumes bars),
    (r"SMA_5", rollingMean 5 (closes bars)),
    (r"SMA_20", rollingMean 20 (closes bars)),
    (r"SMA_50", rollingMean 50 (closes bars)),
    (r"EMA_12", ewm 12 (closes bars)),
    (r"EMA_26", ewm 26 (closes bars)),
    (r"MACD", macdCol bars),
    (r"MACD_Signal", ewm 9 (macdCol bars)),
    (r"RSI", rsiCol bars),
    (r"BB_Middle", rollingMean 20 (closes bars)),
    (r"BB_Upper", bbUpperCol bars),
    (r"BB_Lower", bbLowerCol bars),
    (r"Momentum", momentumCol bars),
    (r"Volume_SMA", rollingMean 20 (volumes bars)),
    (r"Volume_Ratio", volRatioCol bars),
    (r"Daily_Return", pctChange (closes bars)),
    (r"Target", targetCol (closes bars)) ]

/-- The feature columns of `predict.py`/`prepare_model_data`, in the exact
order of the source's `feature_cols` list — the binding order contract. -/
def featureCols : List String :=
  [ r"SMA_5", r"SMA_20", r"SMA_50",
    r"EMA_12", r"EMA_26", r"MACD", r"MACD_Signal",
    r"RSI", r"BB_Upper", r"BB_Lower",
    r"Momentum", r"Volume_Ratio", r"Daily_Return" ]

/-- Cell of a named column at a row index (NaN when out of range). -/
def cellAt (bars : List Bar) (nm : String) (i : ℕ) : PV :=
  (((featureTable bars).lookup nm).getD []).getD i PV.nan

/-- A row survives `df.dropna()` exactly when no cell of any column is NaN. -/
def rowComplete (bars : List Bar) (i : ℕ) : Bool :=
  (featureTable bars).all fun col => !(col.2.getD i PV.nan).isNan

/-- Indices of the rows remaining after `df.dropna()`, in order. -/
def keptIndices (bars : List Bar) : List ℕ :=
  (List.range bars.length).filter fun i => rowComplete bars i

/-- The FeatureRow as a named, ordered mapping: the `feature_cols` names in
order, each paired with its cell in the given row. -/
def namedRow (bars : List Bar) (i : ℕ) : List (String × PV) :=
  featureCols.map fun nm => (nm, cellAt bars nm i)

/-- Direction label of a prediction. -/
inductive Direction where
  | UP : Direction
  | DOWN : Direction
deriving DecidableEq

/-- Modelled from the spec: the error taxonomy of §7.  The backend's typed
error layer (`backend/predict.py` and friends) is not among the sources; the
plan's script aborts with raw library errors at the corresponding points. -/
inductive PredictError where
  | insufficientHistory : PredictError
  | modelNotFound : PredictError
  | corruptArtifact : PredictError
  | featureMismatch : PredictError
  | dataUnavailable : PredictError
deriving DecidableEq

/-- A loaded classifier artifact: class-probability inference over a feature
vector, returning `(P(class 0 = DOWN), P(class 1 = UP))` as
`model.predict_proba(x)[0]` does for the two-class forest. -/
structure Model where
  proba : List PV → ℚ × ℚ

/-- The result dictionary built by `make_prediction`. -/
structure PredictionResult where
  symbol : String
  prediction : Direction
  confidence : ℚ
  current_price : PV
  prob_up : ℚ
  prob_down : ℚ
deriving DecidableEq

/-- `make_prediction` from the plan source: compute the indicator frame, drop
the rows with NaN cells, take the last remaining row as the feature vector,
run the classifier, and package the result.  `prediction == 1` (`argmax` of the
probability pair, ties to class 0) gives UP; `confidence` is
`max(probabilities) * 100`; `current_price` is `df['Close'].iloc[-1]` of the
NaN-dropped frame, i.e. the close at the last surviving row index.  The empty
frame case is modelled from the spec as `InsufficientHistoryError` (the plan
script fails there with a raw scikit-learn error instead of a typed one). -/
def makePrediction (sym : String) (model : Model) (bars : List Bar) :
    Except PredictError PredictionResult :=
  match (keptIndices bars).getLast? with
  | none => .error .insufficientHistory
  | some li =>
      let vec := featureCols.map fun nm => cellAt bars nm li
      let p := model.proba vec
      .ok { symbol := sym
            prediction := if p.1 < p.2 then .UP else .DOWN
            confidence := max p.1 p.2 * 100
            current_price := (closes bars).getD li PV.nan
            prob_up := p.2
            prob_down := p.1 }

/-- Successful payload of a prediction, if any. -/
def predictionOf : Except PredictError PredictionResult → Option PredictionResult
  | .ok r => some r
  | .error _ => none

/-- `calculateSMA` from `TechnicalChart.js`: null before the window is filled
(`i < period - 1`), else the mean of the last `period` prices. -/
def calculateSMA (data : List ℚ) (period : ℕ) : List (Option ℚ) :=
  (List.range data.length).map fun i =>
    if i < period - 1 then none
    else some ((((data.drop (i + 1 - period)).take period).sum) / (period : ℚ))

/-- Tail of `calculateEMA`, carrying the running exponential average. -/
def emaTail (k : ℚ) : ℚ → List ℚ → List ℚ
  | _, [] => []
  | e, x :: xs => (x * k + e * (1 - k)) :: emaTail k (x * k + e * (1 - k)) xs

/-- `calculateEMA` from `TechnicalChart.js`: seeded from the first price,
then `ema = price * k + ema * (1 - k)` with `k = 2 / (period + 1)`. -/
def calculateEMA (data : List ℚ) (period : ℕ) : List ℚ :=
  match data with
  | [] => []
  | x :: rest => x :: emaTail (2 / ((period : ℚ) + 1)) x rest

/-- The consecutive price changes computed at the top of `calculateRSI`. -/
def jsChanges (data : List ℚ) : List ℚ :=
  List.zipWith (fun a b => a - b) (data.drop 1) data

/-- The window `changes.slice(i - period + 1, i + 1)` of `calculateRSI`. -/
def jsWindow (changes : List ℚ) (period i : ℕ) : List ℚ :=
  (changes.drop (i + 1 - period)).take period

/-- `avgGain` of `calculateRSI`: sum of the positive changes in the window
divided by the period, and 0 when there are none. -/
def jsAvgGain (changes : List ℚ) (period i : ℕ) : ℚ :=
  let g := (jsWindow changes period i).filter fun c => 0 < c
  if 0 < g.length then g.sum / (period : ℚ) else 0

/-- `avgLoss` of `calculateRSI`: sum of the absolute negative changes in the
window divided by the period, and 0 when there are none. -/
def jsAvgLoss (changes : List ℚ) (period i : ℕ) : ℚ :=
  let l := ((jsWindow changes period i).filter fun c => c < 0).map fun c => |c|
  if 0 < l.length then l.sum / (period : ℚ) else 0

/-- `calculateRSI` from `TechnicalChart.js`: null before the change window is
filled; `100` outright when the average loss is zero (this covers the all-flat
window where the average gain is also zero); otherwise
`100 - 100 / (1 + avgGain / avgLoss)`.  A null is prepended for the first data
point, which has no change. -/
def calculateRSI (data : List ℚ) (period : ℕ) : List (Option ℚ) :=
  let changes := jsChanges data
  none :: (List.range changes.length).map fun i =>
    if i < period - 1 then none
    else if jsAvgLoss changes period i = 0 then some 100
    else some (100 - 100 / (1 + jsAvgGain changes period i / jsAvgLoss changes period i))

/-- Leading-match test on character lists (structural, so that the kernel can
evaluate it on literals). -/
def leadMatch : List Char → List Char → Bool
  | [], _ => true
  | _ :: _, [] => false
  | a :: as, b :: bs => a == b && leadMatch as bs

/-- Substring test on character lists. -/
def hasSub (pat : List Char) : List Char → Bool
  | [] => leadMatch pat []
  | c :: rest => leadMatch pat (c :: rest) || hasSub pat rest

/-- The crypto currency-pair marker. -/
def dashUSD : String := r"-USD"

/-- Modelled from the spec: the symbol classifier of the model registry
(`backend/predict.py` is not among the sources).  Per CLAUDE.md's
"Model Architecture & Routing", a symbol is crypto when it contains `-USD`. -/
def isCrypto (sym : String) : Bool := hasSub dashUSD.toList sym.toList

/-- A model artifact candidate: the symbol-specific crypto artifact, the
extended ("enhanced") equity artifact, or the original 30-feature equity
artifact. -/
inductive Candidate where
  | cryptoSpecific : String → Candidate
  | extendedEquity : Candidate
  | originalEquity : Candidate
deriving DecidableEq

/-- Modelled from the spec: the ordered candidate list of §4.3
(`backend/predict.py` is not among the sources).  Crypto symbols try the
symbol-specific artifact and fall back to the generic equity artifact; equity
symbols try the extended artifact and fall back to the original one. -/
def candidateList (sym : String) : List Candidate :=
  if isCrypto sym then [.cryptoSpecific sym, .originalEquity]
  else [.extendedEquity, .originalEquity]

/-- Modelled from the spec: model resolution (`backend/predict.py` is not
among the sources) — the first available candidate wins, and
`ModelNotFoundError` is raised when none resolves. -/
def resolveModel (sym : String) (avail : Candidate → Bool) :
    Except PredictError Candidate :=
  match (candidateList sym).find? (fun c => avail c) with
  | some c => .ok c
  | none => .error .modelNotFound

/-- The leading byte signature of a Git LFS pointer file (the placeholder
left by large-file storage; see the "Railway Git LFS Fix" document:
`version https://git-lfs.github.com`). -/
def lfsSig : List Char := (r"version https://git-lfs").toList

/-- Modelled from the spec: placeholder detection of the model loader
(`backend/model_loader.py` is not among the sources) — inspect the leading
bytes of the artifact against the known placeholder signature. -/
def isPlaceholder (content : List Char) : Bool := leadMatch lfsSig content

/-- Modelled from the spec: the contents a single candidate load passes to the
deserializer (`backend/model_loader.py` is not among the sources).  A
placeholder is never deserialized directly: only the remotely fetched bytes
(if the fetch succeeds) reach the deserializer. -/
def deserAttempts (content : List Char) (remote : Option (List Char)) :
    List (List Char) :=
  if isPlaceholder content then
    match remote with
    | some r => [r]
    | none => []
  else [content]

/-- Modelled from the spec: loading one candidate (`backend/model_loader.py`
is not among the sources).  `deser` is the deserialization hook (an abstract
artifact is a natural number); `remote` is the result of attempting to fetch
the real artifact from the remote source.  Placeholder content triggers the
remote attempt instead of direct deserialization. -/
def tryLoadCandidate (deser : List Char → Option ℕ) (content : List Char)
    (remote : Option (List Char)) : Option ℕ :=
  if isPlaceholder content then remote.bind deser else deser content

/-- Modelled from the spec: walking the ordered candidate list — the first
candidate that deserializes wins, and resolution moves to the next candidate
only when the current one (including its remote fallback) fails. -/
def resolveArtifacts (deser : List Char → Option ℕ) :
    List (List Char × Option (List Char)) → Except PredictError ℕ
  | [] => .error .modelNotFound
  | (c, r) :: rest =>
      match tryLoadCandidate deser c r with
      | some m => .ok m
      | none => resolveArtifacts deser rest

/-- Modelled from the spec: the Predictor's dimension guard of §4.4 step 3
(`backend/predict.py` is not among the sources) — inference is invoked only
after the feature vector's length is checked against the resolved model's
expected input dimension, and a mismatch is `FeatureMismatchError`. -/
def checkAndInfer (expectedDim : ℕ) (proba : List ℚ → ℚ × ℚ) (vec : List ℚ) :
    Except PredictError (ℚ × ℚ) :=
  if vec.length = expectedDim then .ok (proba vec) else .error .featureMismatch

/-- A symbol used by the concrete evaluations. -/
def demoSym : String := r"SPY"

/-- A classifier assigning fixed probabilities `(0.4, 0.6)`. -/
def demoModel : Model := { proba := fun _ => (2/5, 3/5) }

/-- Fifty bars with strictly increasing closes `100 + i` and constant volume:
enough history for the 50-bar SMA window, so exactly the final row (index 49)
is fully defined. -/
def demoBars50 : List Bar :=
  (List.range 50).map fun i =>
    { time := i, op := 100 + i, hi := 101 + i, lo := 99 + i,
      close := 100 + (i : ℚ), volume := 1000 }

/-- Forty-nine bars — one short of the 50-bar SMA window. -/
def demoBars49 : List Bar :=
  (List.range 49).map fun i =>
    { time := i, op := 100 + i, hi := 101 + i, lo := 99 + i,
      close := 100 + (i : ℚ), volume := 1000 }

/-- Fifty-one bars with closes `100 + i` whose volumes vanish from index 31
on: at the final row (index 50) the 20-bar volume window is all zero, the
volume ratio is `0 / 0 = NaN`, and `dropna` removes the final row while row 49
survives — so the prediction succeeds with a current price taken from bar 49,
not from the most recent bar. -/
def demoBars51 : List Bar :=
  (List.range 51).map fun i =>
    { time := i, op := 100 + i, hi := 101 + i, lo := 99 + i,
      close := 100 + (i : ℚ), volume := if i ≤ 30 then 1000 else 0 }

/-- Two bars: far too few for any rolling window, every row is dropped. -/
def demoBars2 : List Bar :=
  [ { time := 0, op := 100, hi := 101, lo := 99, close := 100, volume := 1000 },
    { time := 1, op := 101, hi := 102, lo := 100, close := 101, volume := 1000 } ]

/-- The prediction `make_prediction` returns on `demoBars50` with `demoModel`:
probabilities `(0.4, 0.6)` give UP with confidence 60, and the current price
is the close of the last (fully defined) bar. -/
def c1res : PredictionResult :=
  { symbol := demoSym, prediction := .UP, confidence := 60,
    current_price := PV.num 149, prob_up := 3/5, prob_down := 2/5 }

/-- Fifteen prices with a strictly alternating step, enough to fill the
14-change RSI window at the final position. -/
def demoPrices : List ℚ :=
  [100, 102, 101, 103, 102, 104, 103, 105, 104, 106, 105, 107, 106, 108, 107]

/-- The crypto symbol of the routing scenario. -/
def btcSym : String := r"BTC-USD"

/-- Availability in which only the generic equity artifact exists. -/
def availEquityOnly : Candidate → Bool
  | .originalEquity => true
  | _ => false

/-- A Git LFS pointer file's contents (starts with the placeholder signature). -/
def lfsPointerChars : List Char :=
  (r"version https://git-lfs.github.com/spec/v1").toList

/-- Bytes of a genuine binary artifact for the loader scenario. -/
def realModelChars : List Char := (r"real-binary-model-bytes").toList

/-- A deserialization hook that succeeds exactly on the genuine bytes. -/
def demoDeser : List Char → Option ℕ :=
  fun c => if c = realModelChars then some 1 else none

/-- A 31-value feature vector for the dimension-mismatch scenario. -/
def demoVec31 : List ℚ := List.replicate 31 0

theorem PV.sub_nan (x : PV) : PV.sub x PV.nan = PV.nan := by
  cases x <;> rfl

theorem PV.lt_nan (x : PV) : PV.lt x PV.nan = false := by
  cases x <;> rfl

theorem rollingMean_getD_nan (w : ℕ) (xs : List PV) (i : ℕ)
    (h1 : i < xs.length) (h2 : i + 1 < w) :
    (rollingMean w xs).getD i PV.nan = PV.nan := by
  simp [rollingMean, List.getD, List.getElem?_map, List.getElem?_range, h1, h2]

theorem rollingStd_getD_nan (w : ℕ) (xs : List PV) (i : ℕ)
    (h1 : i < xs.length) (h2 : i + 1 < w) :
    (rollingStd w xs).getD i PV.nan = PV.nan := by
  simp [rollingStd, List.getD, List.getElem?_map, List.getElem?_range, h1, h2]

theorem zipWith_getD (f : PV → PV → PV) (a b : List PV) (i : ℕ)
    (ha : i < a.length) (hb : i < b.length) :
    (List.zipWith f a b).getD i PV.nan = f (a.getD i PV.nan) (b.getD i PV.nan) := by
  induction a generalizing b i with
  | nil => simp at ha
  | cons x xs ih =>
      cases b with
      | nil => simp at hb
      | cons y ys =>
          cases i with
          | zero => simp [List.getD]
          | succ j =>
              simp only [List.zipWith_cons_cons, List.getD_cons_succ]
              exact ih ys j (by simpa using ha) (by simpa using hb)

theorem shiftPos_getD_nan (k : ℕ) (xs : List PV) (i : ℕ)
    (h1 : i < xs.length) (h2 : i < k) :
    (shiftPos k xs).getD i PV.nan = PV.nan := by
  have hrep : i < min k xs.length := by omega
  simp [shiftPos, List.getD, List.getElem?_append, hrep]

theorem closes_length (bars : List Bar) : (closes bars).length = bars.length := by
  simp [closes]

theorem momentumCol_getD_nan (bars : List Bar) (i : ℕ)
    (h1 : i < bars.length) (h2 : i < 10) :
    (momentumCol bars).getD i PV.nan = PV.nan := by
  have hc : i < (closes bars).length := by simpa [closes_length] using h1
  have hs : i < (shiftPos 10 (closes bars)).length := by
    simp only [shiftPos, List.length_append, List.length_replicate, List.length_take]
    omega
  rw [momentumCol, zipWith_getD _ _ _ _ hc hs, shiftPos_getD_nan _ _ _ hc h2, PV.sub_nan]

theorem sma50_mem_featureTable (bars : List Bar) :
    ((r"SMA_50"), rollingMean 50 (closes bars)) ∈ featureTable bars := by
  simp [featureTable]

theorem rowComplete_false_of_small (bars : List Bar) (i : ℕ)
    (h1 : i < bars.length) (h2 : i + 1 < 50) :
    rowComplete bars i = false := by
  by_contra h
  rw [Bool.not_eq_false, rowComplete, List.all_eq_true] at h
  have hm := h _ (sma50_mem_featureTable bars)
  rw [rollingMean_getD_nan 50 (closes bars) i (by simpa [closes_length] using h1) h2] at hm
  simp [PV.isNan] at hm

theorem not_kept_of_small (bars : List Bar) (i : ℕ) (h2 : i + 1 < 50) :
    i ∉ keptIndices bars := by
  intro hmem
  rw [keptIndices, List.mem_filter, List.mem_range] at hmem
  obtain ⟨hlt, hcomp⟩ := hmem
  rw [rowComplete_false_of_small bars i hlt h2] at hcomp
  exact absurd hcomp (by simp)

theorem keptIndices_eq_nil_of_len49 (bars : List Bar) (h : bars.length = 49) :
    keptIndices bars = [] := by
  rw [keptIndices, List.filter_eq_nil_iff]
  intro i hi
  rw [h, List.mem_range] at hi
  simp only [Bool.not_eq_true]
  exact rowComplete_false_of_small bars i (by omega) (by omega)

/-- C2: a Bar sequence of exactly 49 bars — one short of the 50-bar SMA
window — leaves no fully defined feature row, so every row is dropped and
`make_prediction` fails with `InsufficientHistoryError` (and with no other
error, and with no partial result). -/
theorem makePrediction_insufficient_history_49 (sym : String) (model : Model)
    (bars : List Bar) (h : bars.length = 49) :
    makePrediction sym model bars = .error .insufficientHistory := by
  rw [makePrediction, keptIndices_eq_nil_of_len49 bars h]
  rfl

/-- Witness for C2 at a concrete 49-bar sequence. -/
theorem makePrediction_insufficient_history_49_witness :
    makePrediction demoSym demoModel demoBars49 = .error .insufficientHistory :=
  makePrediction_insufficient_history_49 demoSym demoModel demoBars49 (by
    simp [demoBars49])

theorem calculateSMA_getD_none (data : List ℚ) (p i : ℕ)
    (h1 : i < data.length) (h2 : i < p - 1) :
    (calculateSMA data p).getD i none = none := by
  simp [calculateSMA, List.getD, List.getElem?_map, List.getElem?_range, h1, h2]

theorem jsChanges_length (data : List ℚ) :
    (jsChanges data).length = data.length - 1 := by
  simp [jsChanges]

theorem calculateRSI_getD_none (data : List ℚ) (p i : ℕ)
    (h1 : i < data.length) (h2 : i < p) :
    (calculateRSI data p).getD i none = none := by
  cases i with
  | zero => simp [calculateRSI]
  | succ j =>
      have hj : j < (jsChanges data).length := by rw [jsChanges_length]; omega
      have hj2 : j < p - 1 := by omega
      simp [calculateRSI, List.getD, List.getElem?_map, List.getElem?_range, hj, hj2]

/-- C9: window-based indicators are undefined before their lookback window is
filled — the rolling mean and rolling standard deviation (hence the SMA,
Bollinger and volume columns), the momentum column (a 10-bar shift), and the
chart's `calculateSMA` and `calculateRSI` all yield an undefined cell there,
the undefined cell propagates into the feature table (the row is dropped, so
the warm-up position is never silently replaced by a default value). -/
theorem warmup_positions_undefined (bars : List Bar) (xs : List PV)
    (data : List ℚ) (w p i : ℕ) :
    (i + 1 < w → i < xs.length → (rollingMean w xs).getD i PV.nan = PV.nan)
    ∧ (i + 1 < w → i < xs.length → (rollingStd w xs).getD i PV.nan = PV.nan)
    ∧ (i < 10 → i < bars.length → (momentumCol bars).getD i PV.nan = PV.nan)
    ∧ (i < p - 1 → i < data.length → (calculateSMA data p).getD i none = none)
    ∧ (i < p → i < data.length → (calculateRSI data p).getD i none = none)
    ∧ (i + 1 < 50 → i ∉ keptIndices bars) :=
  ⟨fun h2 h1 => rollingMean_getD_nan w xs i h1 h2,
   fun h2 h1 => rollingStd_getD_nan w xs i h1 h2,
   fun h2 h1 => momentumCol_getD_nan bars i h1 h2,
   fun h2 h1 => calculateSMA_getD_none data p i h1 h2,
   fun h2 h1 => calculateRSI_getD_none data p i h1 h2,
   fun h2 => not_kept_of_small bars i h2⟩

/-- Witness for C9 at position 0 of concrete inputs. -/
theorem warmup_positions_undefined_witness :
    (rollingMean 50 (closes demoBars2)).getD 0 PV.nan = PV.nan
    ∧ (rollingStd 50 (closes demoBars2)).getD 0 PV.nan = PV.nan
    ∧ (momentumCol demoBars2).getD 0 PV.nan = PV.nan
    ∧ (calculateSMA demoPrices 14).getD 0 none = none
    ∧ (calculateRSI demoPrices 14).getD 0 none = none
    ∧ 0 ∉ keptIndices demoBars2 := by
  obtain ⟨a, b, c, d, e, f⟩ :=
    warmup_positions_undefined demoBars2 (closes demoBars2) demoPrices 50 14 0
  exact ⟨a (by decide) (by decide), b (by decide) (by decide),
         c (by decide) (by decide), d (by decide) (by decide),
         e (by decide) (by decide), f (by decide)⟩

theorem targetCol_getLast_cons (y : PV) (t : List PV) :
    (targetCol (y :: t)).getLast? = some (PV.num 0) := by
  rw [targetCol]
  simp only [List.length_cons]
  rw [List.range_succ, List.map_append]
  simp only [List.map_cons, List.map_nil, List.getLast?_concat]
  have hs : (shiftM1 (y :: t)).getD t.length PV.nan = PV.nan := by
    simp [shiftM1, List.getD, List.getElem?_append_right]
  rw [hs, PV.lt_nan]
  simp

theorem targetCol_ne_nan (xs : List PV) (v : PV) (hv : v ∈ targetCol xs) :
    v ≠ PV.nan := by
  rw [targetCol] at hv
  obtain ⟨i, _, rfl⟩ := List.mem_map.mp hv
  split <;> simp

/-- C10 (amended): the training-target column compares the shifted next close
against today's close with a NaN-false comparison, so the final bar always
receives label 0 (DOWN) and no Target cell is ever undefined — the
NaN-dropping step never removes a row on account of the Target column.  (The
final row can still be removed when an indicator cell is undefined there; see
the counterexample.) -/
theorem target_final_zero (bars : List Bar) (h : bars ≠ []) :
    (targetCol (closes bars)).getLast? = some (PV.num 0)
    ∧ ∀ v ∈ targetCol (closes bars), v ≠ PV.nan := by
  constructor
  · cases bars with
    | nil => exact absurd rfl h
    | cons b bs => exact targetCol_getLast_cons _ _
  · exact fun v hv => targetCol_ne_nan _ v hv

/-- Witness for C10 (amended) at a concrete two-bar sequence. -/
theorem target_final_zero_witness :
    (targetCol (closes demoBars2)).getLast? = some (PV.num 0)
    ∧ ∀ v ∈ targetCol (closes demoBars2), v ≠ PV.nan :=
  target_final_zero demoBars2 (by simp [demoBars2])

/-- C10 counterexample: on a two-bar sequence the final bar's Target is 0 as
claimed, yet the final row IS removed by the NaN-dropping step (no row at all
survives `dropna`, the indicator columns being undefined), refuting the
claim's consequent that the final row is never removed. -/
theorem target_final_zero_counterexample :
    (targetCol (closes demoBars2)).getLast? = some (PV.num 0)
    ∧ keptIndices demoBars2 = [] :=
  ⟨by rfl, by rfl⟩

/-- C7: the Feature Engine is a pure function — the feature table and any
named feature row are reproduced identically on recomputation, and the names
of a feature row are always exactly the canonical `feature_cols` list in its
published order, for every input. -/
theorem featureRow_deterministic (bars : List Bar) (i : ℕ) :
    featureTable bars = featureTable bars
    ∧ namedRow bars i = namedRow bars i
    ∧ (namedRow bars i).map Prod.fst = featureCols :=
  ⟨rfl, rfl, rfl⟩

/-- C1: a successful prediction reports as confidence exactly the larger of
the two class probabilities scaled to 0–100, and when the classifier's
probabilities are nonnegative and sum to one the confidence lies in
[50, 100]. -/
theorem confidence_is_max_prob (sym : String) (model : Model) (bars : List Bar)
    (res : PredictionResult)
    (hp : ∀ v, 0 ≤ (model.proba v).1 ∧ 0 ≤ (model.proba v).2 ∧
          (model.proba v).1 + (model.proba v).2 = 1)
    (hok : makePrediction sym model bars = .ok res) :
    res.confidence = max res.prob_down res.prob_up * 100
    ∧ 50 ≤ res.confidence ∧ res.confidence ≤ 100 := by
  cases hkl : (keptIndices bars).getLast? with
  | none => rw [makePrediction, hkl] at hok; exact absurd hok (by simp)
  | some li =>
      rw [makePrediction, hkl] at hok
      simp only [Except.ok.injEq] at hok
      subst hok
      obtain ⟨h1, h2, h3⟩ := hp (featureCols.map fun nm => cellAt bars nm li)
      refine ⟨rfl, ?_, ?_⟩ <;> dsimp only <;>
        rcases le_total (model.proba (featureCols.map fun nm => cellAt bars nm li)).1
          (model.proba (featureCols.map fun nm => cellAt bars nm li)).2 with h | h
      · rw [max_eq_right h]; linarith
      · rw [max_eq_left h]; linarith
      · rw [max_eq_right h]; linarith
      · rw [max_eq_left h]; linarith

/-- Witness for C1 on a concrete 50-bar run with probabilities (0.4, 0.6). -/
theorem confidence_is_max_prob_witness :
    c1res.confidence = max c1res.prob_down c1res.prob_up * 100
    ∧ 50 ≤ c1res.confidence ∧ c1res.confidence ≤ 100 :=
  confidence_is_max_prob demoSym demoModel demoBars50 c1res
    (fun v => ⟨by norm_num [demoModel], by norm_num [demoModel],
      by norm_num [demoModel]⟩) (by rfl)

theorem keptIndices_getLast_of_final (bars : List Bar) (n : ℕ)
    (hlen : bars.length = n + 1) (hc : rowComplete bars n = true) :
    (keptIndices bars).getLast? = some n := by
  rw [keptIndices, hlen, List.range_succ, List.filter_append]
  have hfs : List.filter (fun i => rowComplete bars i) [n] = [n] := by simp [hc]
  rw [hfs, List.getLast?_concat]

/-- C8 (amended): a successful prediction's current price is the close at the
last surviving row of the NaN-dropped frame; in particular, whenever the
final row's cells are all defined, that row survives and the current price is
the close of the most recent Bar.  (When the final row has an undefined cell
the prediction can still succeed with an earlier close; see the
counterexample.) -/
theorem current_price_of_complete_final (sym : String) (model : Model)
    (bars : List Bar) (res : PredictionResult) (h0 : bars ≠ [])
    (hc : rowComplete bars (bars.length - 1) = true)
    (hok : makePrediction sym model bars = .ok res) :
    res.current_price = PV.num ((bars.getLast h0).close) := by
  obtain ⟨n, hlen⟩ : ∃ n, bars.length = n + 1 := by
    cases bars with
    | nil => exact absurd rfl h0
    | cons b bs => exact ⟨bs.length, rfl⟩
  have hc' : rowComplete bars n = true := by rwa [hlen, Nat.add_sub_cancel] at hc
  have hl := keptIndices_getLast_of_final bars n hlen hc'
  rw [makePrediction, hl] at hok
  simp only [Except.ok.injEq] at hok
  subst hok
  have hn : n < bars.length := by omega
  dsimp only
  simp only [closes, List.getD, List.getElem?_map, List.getElem?_eq_getElem hn,
    Option.map_some, Option.getD_some]
  rw [List.getLast_eq_getElem]
  simp [hlen]

/-- Witness for C8 (amended) on the 50-bar run whose final row is complete. -/
theorem current_price_of_complete_final_witness :
    c1res.current_price = PV.num ((demoBars50.getLast (by decide)).close) :=
  current_price_of_complete_final demoSym demoModel demoBars50 c1res
    (by decide) (by rfl) (by rfl)

/-- C8 counterexample: on `demoBars51` the prediction succeeds, yet the
reported current price is 149 — the close of the bar at index 49, the last
surviving row — while the most recent Bar closes at 150: the NaN-dropping
step removed the final row (its volume ratio is 0/0 = NaN), so the claim
"current price equals the close of the most recent Bar" fails. -/
theorem current_price_counterexample :
    (predictionOf (makePrediction demoSym demoModel demoBars51)).map
        PredictionResult.current_price = some (PV.num 149)
    ∧ demoBars51.getLast?.map Bar.close = some 150
    ∧ PV.num 149 ≠ PV.num (150 : ℚ) :=
  ⟨by rfl, by rfl, by decide⟩

theorem jsAvgGain_nonneg (changes : List ℚ) (p i : ℕ) :
    0 ≤ jsAvgGain changes p i := by
  rw [jsAvgGain]
  split
  · apply div_nonneg _ (Nat.cast_nonneg p)
    apply List.sum_nonneg
    intro x hx
    exact le_of_lt (of_decide_eq_true (List.mem_filter.mp hx).2)
  · exact le_refl 0

theorem jsAvgLoss_nonneg (changes : List ℚ) (p i : ℕ) :
    0 ≤ jsAvgLoss changes p i := by
  rw [jsAvgLoss]
  split
  · apply div_nonneg _ (Nat.cast_nonneg p)
    apply List.sum_nonneg
    intro x hx
    obtain ⟨c, _, rfl⟩ := List.mem_map.mp hx
    exact abs_nonneg c
  · exact le_refl 0

theorem rangeMap_getD {α : Type} (f : ℕ → Option α) (n i : ℕ) (h : i < n) :
    ((List.range n).map f).getD i none = f i := by
  simp [List.getD, List.getElem?_map, List.getElem?_range, h]

/-- C3: at every position where the 14-change lookback window of
`calculateRSI` is filled, the RSI value is defined and lies in [0, 100], and
it equals exactly 100 whenever the window's average loss is zero — including
when the average gain is also zero, thanks to the explicit zero-loss branch. -/
theorem rsi_bounded (data : List ℚ) (i : ℕ) (h14 : 14 ≤ i)
    (hlen : i < data.length) :
    ∃ r, (calculateRSI data 14).getD i none = some r
      ∧ 0 ≤ r ∧ r ≤ 100
      ∧ (jsAvgLoss (jsChanges data) 14 (i - 1) = 0 → r = 100) := by
  obtain ⟨j, rfl⟩ : ∃ j, i = j + 1 := ⟨i - 1, by omega⟩
  have hj : j < (jsChanges data).length := by rw [jsChanges_length]; omega
  have hj13 : ¬ (j < 14 - 1) := by omega
  simp only [calculateRSI, List.getD_cons_succ, Nat.add_sub_cancel]
  rw [rangeMap_getD _ _ _ hj, if_neg hj13]
  by_cases hl0 : jsAvgLoss (jsChanges data) 14 j = 0
  · rw [if_pos hl0]
    exact ⟨100, rfl, by norm_num, by norm_num, fun _ => rfl⟩
  · rw [if_neg hl0]
    have hg := jsAvgGain_nonneg (jsChanges data) 14 j
    have hl := jsAvgLoss_nonneg (jsChanges data) 14 j
    have hlpos : 0 < jsAvgLoss (jsChanges data) 14 j := lt_of_le_of_ne hl (Ne.symm hl0)
    have hrs : 0 ≤ jsAvgGain (jsChanges data) 14 j / jsAvgLoss (jsChanges data) 14 j :=
      div_nonneg hg (le_of_lt hlpos)
    have hpos : (0 : ℚ) < 1 + jsAvgGain (jsChanges data) 14 j / jsAvgLoss (jsChanges data) 14 j := by
      linarith
    have hle : (100 : ℚ) / (1 + jsAvgGain (jsChanges data) 14 j / jsAvgLoss (jsChanges data) 14 j) ≤ 100 := by
      rw [div_le_iff₀ hpos]; nlinarith
    have hgt : (0 : ℚ) < 100 / (1 + jsAvgGain (jsChanges data) 14 j / jsAvgLoss (jsChanges data) 14 j) := by
      positivity
    exact ⟨_, rfl, by linarith, by linarith, fun hcon => absurd hcon hl0⟩

/-- Witness for C3 at the final position of a 15-price series. -/
theorem rsi_bounded_witness :
    ∃ r, (calculateRSI demoPrices 14).getD 14 none = some r
      ∧ 0 ≤ r ∧ r ≤ 100
      ∧ (jsAvgLoss (jsChanges demoPrices) 14 (14 - 1) = 0 → r = 100) :=
  rsi_bounded demoPrices 14 (by decide) (by decide)

/-- C4: whenever the final feature vector's length differs from the model's
expected input dimension, the Predictor fails with `FeatureMismatchError`
before inference is ever invoked — never with a raw deserialization or
library error. -/
theorem feature_mismatch_guard (dim : ℕ) (proba : List ℚ → ℚ × ℚ)
    (vec : List ℚ) (h : vec.length ≠ dim) :
    checkAndInfer dim proba vec = .error .featureMismatch := by
  rw [checkAndInfer, if_neg h]

/-- Witness for C4: a 31-value vector against a model expecting 30. -/
theorem feature_mismatch_guard_witness :
    checkAndInfer 30 (fun _ => (1/2, 1/2)) demoVec31 = .error .featureMismatch :=
  feature_mismatch_guard 30 _ demoVec31 (by decide)

/-- C5: a crypto-classified symbol (containing the `-USD` currency-pair
marker) whose symbol-specific artifact is unavailable resolves to the generic
equity fallback candidate, not to a failure, whenever that fallback is
available. -/
theorem crypto_fallback_to_equity (sym : String) (avail : Candidate → Bool)
    (hc : isCrypto sym = true)
    (h1 : avail (.cryptoSpecific sym) = false)
    (h2 : avail .originalEquity = true) :
    resolveModel sym avail = .ok .originalEquity := by
  simp [resolveModel, candidateList, hc, List.find?, h1, h2]

/-- Witness for C5: `BTC-USD` with only the generic equity artifact present. -/
theorem crypto_fallback_to_equity_witness :
    resolveModel btcSym availEquityOnly = .ok .originalEquity :=
  crypto_fallback_to_equity btcSym availEquityOnly (by decide) (by rfl) (by rfl)

/-- C6: content whose leading bytes match the large-file-storage placeholder
signature is never handed to the deserializer directly — only the remotely
resolved bytes can reach it — and the registry moves on to the next candidate
exactly when that remote resolution also fails. -/
theorem placeholder_never_deserialized (deser : List Char → Option ℕ)
    (content : List Char) (remote : Option (List Char))
    (rest : List (List Char × Option (List Char)))
    (h : isPlaceholder content = true) :
    deserAttempts content remote = remote.toList
    ∧ tryLoadCandidate deser content remote = remote.bind deser
    ∧ (∀ m, remote.bind deser = some m →
        resolveArtifacts deser ((content, remote) :: rest) = .ok m)
    ∧ (remote.bind deser = none →
        resolveArtifacts deser ((content, remote) :: rest) = resolveArtifacts deser rest) := by
  refine ⟨?_, ?_, ?_, ?_⟩
  · simp only [deserAttempts, h, if_true]; cases remote <;> rfl
  · rw [tryLoadCandidate, if_pos h]
  · intro m hm
    simp [resolveArtifacts, tryLoadCandidate, h, hm]
  · intro hm
    simp [resolveArtifacts, tryLoadCandidate, h, hm]

/-- Witness for C6: a genuine LFS pointer with a successful remote fetch. -/
theorem placeholder_never_deserialized_witness :
    deserAttempts lfsPointerChars (some realModelChars) = (some realModelChars).toList
    ∧ resolveArtifacts demoDeser [(lfsPointerChars, some realModelChars)] = .ok 1 := by
  have h := placeholder_never_deserialized demoDeser lfsPointerChars
      (some realModelChars) [] (by decide)
  exact ⟨h.1, h.2.2.1 1 (by decide)⟩

end Stocky
